import Mathlib

/-!
Shallow embedding of the WALKOFF distributed execution subsystem:
the condition-tree evaluator (`walkoff/executiondb/conditionalexpression.py`,
`condition.py`, `transform.py`), the workflow execution engine
(`walkoff/executiondb/workflow.py`), the results receiver
(`walkoff/multiprocessedexecutor/zmq_receivers.py`) and the executor's pause
entry point (`walkoff/core/multiprocessedexecutor/multiprocessedexecutor.py`).

App capabilities (argument validation, condition/transform invocation, action
invocation) are external collaborators in the Python code; they are modelled
here as oracle structures (`ExecStrategy`, `ActionOracle`) supplied to the
embedded functions, with `Except` capturing the exceptions the Python code
catches (`InvalidArgument`, `ExecutionError`).
-/

namespace Walkoff

/-- Runtime values flowing through a run (action results, accumulator entries,
transform data).  Python passes arbitrary objects; a small closed universe is
enough for the properties proved here. -/
inductive Val where
  | vint (n : Int)
  | vstr (s : String)
  | vbool (b : Bool)
  deriving DecidableEq, Repr

/-- The per-run accumulator: Python dict mapping element id to the last
produced result (`Workflow._accumulator`). -/
abbrev Accumulator := List (Nat × Val)

/-- Dict lookup: first entry with the given key. -/
def accLookup (acc : Accumulator) (k : Nat) : Option Val :=
  (acc.find? (fun p => p.1 == k)).map (fun p => p.2)

/-- Dict assignment `acc[k] = v`: overwrite in place when the key is present,
append otherwise (Python dicts keep insertion order and overwrite in place). -/
def accUpdate (acc : Accumulator) (k : Nat) (v : Val) : Accumulator :=
  if acc.any (fun p => p.1 == k) then
    acc.map (fun p => if p.1 == k then (k, v) else p)
  else
    acc ++ [(k, v)]

/-- `{str(key): value for key, value in self._accumulator.items()}` in
`Workflow.__shutdown`. -/
def snapshot (acc : Accumulator) : List (String × Val) :=
  acc.map (fun p => (toString p.1, p.2))

/-- `walkoff/executiondb/argument.py` Argument: a name bound to a literal
value (the reference/selection form is irrelevant to the claims proved here,
both forms feed the external validator unchanged). -/
structure Argument where
  name : String
  value : Val
  deriving DecidableEq, Repr

/-- Validated, bound call arguments as returned by
`validate_condition_parameters` / `validate_transform_parameters`. -/
abbrev BoundArgs := List (String × Val)

/-- `walkoff/executiondb/transform.py` Transform: an (app, action) capability
reference with arguments.  `data_param_name` is the runtime field
`_data_param_name` resolved from the app api at validation time. -/
structure Transform where
  app_name : String
  action_name : String
  data_param_name : String
  arguments : List Argument
  deriving DecidableEq, Repr

/-- `walkoff/executiondb/condition.py` Condition: leaf boolean test with a
negation flag and a chain of transforms. -/
structure Condition where
  app_name : String
  action_name : String
  data_param_name : String
  is_negated : Bool
  arguments : List Argument
  transforms : List Transform
  deriving DecidableEq, Repr

/-- External collaborators used by conditions and transforms: the argument
validator (`walkoff.appgateway.validator`) and the action execution strategy
that invokes the bound app capability.  Each is keyed by the element's
(app name, action name), which is what determines the api and the executable
in the Python code.  `Except.error` models the `InvalidArgument` /
`ExecutionError` exceptions the callers catch. -/
structure ExecStrategy where
  validate_transform : String → String → List Argument → Accumulator → Except String BoundArgs
  run_transform : String → String → Accumulator → BoundArgs → Except String Val
  validate_condition : String → String → List Argument → Accumulator → Except String BoundArgs
  run_condition : String → String → Accumulator → BoundArgs → Except String Bool

/-- `Transform.__update_arguments_with_data`: drop any caller-supplied
argument occupying the data-parameter slot, then bind the current data value
there. -/
def Transform.update_arguments_with_data (t : Transform) (data : Val) : List Argument :=
  (t.arguments.filter (fun a => a.name ≠ t.data_param_name)) ++ [⟨t.data_param_name, data⟩]

/-- `Transform.execute`: validate the arguments with the data bound in, then
invoke the capability; on `InvalidArgument` or `ExecutionError` return the
(deep-copied, hence equal) input unchanged. -/
def Transform.execute (s : ExecStrategy) (t : Transform) (data_in : Val) (acc : Accumulator) : Val :=
  match s.validate_transform t.app_name t.action_name (t.update_arguments_with_data data_in) acc with
  | .error _ => data_in
  | .ok args =>
    match s.run_transform t.app_name t.action_name acc args with
    | .error _ => data_in
    | .ok result => result

/-- `Condition.__update_arguments_with_data`. -/
def Condition.update_arguments_with_data (c : Condition) (data : Val) : List Argument :=
  (c.arguments.filter (fun a => a.name ≠ c.data_param_name)) ++ [⟨c.data_param_name, data⟩]

/-- `Condition.execute`: run the transform chain left-to-right over the input,
validate the arguments with the transformed data bound in, invoke the
capability, and apply `is_negated` to its result.  Both the validation
failure path and the invocation failure path return `False` without applying
negation. -/
def Condition.execute (s : ExecStrategy) (c : Condition) (data_in : Val) (acc : Accumulator) : Bool :=
  let data := c.transforms.foldl (fun d t => Transform.execute s t d acc) data_in
  match s.validate_condition c.app_name c.action_name (c.update_arguments_with_data data) acc with
  | .error _ => false
  | .ok args =>
    match s.run_condition c.app_name c.action_name acc args with
    | .error _ => false
    | .ok ret => if c.is_negated then !ret else ret

/-- The `operator` column of `conditional_expression` (`valid_operators`). -/
inductive Operator where
  | opAnd
  | opOr
  | opXor
  deriving DecidableEq, Repr

/-- `walkoff/executiondb/conditionalexpression.py` ConditionalExpression:
an operator node over leaf conditions and child expressions, with a negation
flag.  The SQLAlchemy parent back-reference is not part of the value: the
tree is owned top-down. -/
inductive ConditionalExpression where
  | mk (operator : Operator) (is_negated : Bool)
       (conditions : List Condition)
       (child_expressions : List ConditionalExpression)

/-- The loop body of `ConditionalExpression._xor`: walk the element results in
order tracking `is_one_found`, returning `False` as soon as a second true is
seen. -/
def xorLoop (found : Bool) : List Bool → Bool
  | [] => found
  | b :: rest => if b then (if found then false else xorLoop true rest) else xorLoop found rest

/-- `ConditionalExpression.execute` together with the `_and`/`_or`/`_xor`
operator bodies it dispatches to; the result is inverted afterwards when
`is_negated` is set. -/
def ConditionalExpression.execute (s : ExecStrategy) (data_in : Val) (acc : Accumulator) :
    ConditionalExpression → Bool
  | .mk op neg conds children =>
    let result :=
      match op with
      | .opAnd =>
        (conds.all (fun c => Condition.execute s c data_in acc))
          && (children.attach.all (fun ch => ConditionalExpression.execute s data_in acc ch.1))
      | .opOr =>
        if conds.isEmpty && children.isEmpty then true
        else
          (conds.any (fun c => Condition.execute s c data_in acc))
            || (children.attach.any (fun ch => ConditionalExpression.execute s data_in acc ch.1))
      | .opXor =>
        if conds.isEmpty && children.isEmpty then true
        else
          xorLoop false
            ((conds.map (fun c => Condition.execute s c data_in acc))
              ++ (children.attach.map (fun ch => ConditionalExpression.execute s data_in acc ch.1)))
    if neg then !result else result
  decreasing_by
    all_goals simp_wf
    all_goals (rcases ch with ⟨c, hc⟩; have := List.sizeOf_lt_of_mem hc; simp at this ⊢; omega)

/-- A node of the workflow graph: an Action (or a ChildWorkflow, which the
engine treats as another executable node).  The invocation itself is an
external collaborator, so only the identity matters here. -/
structure Action where
  id : Nat
  deriving DecidableEq, Repr

/-- `walkoff/executiondb/branch.py` Branch: a priority-ordered edge from a
source node to a destination (id plus kind), optionally gated by a
ConditionalExpression. -/
structure Branch where
  id : Nat
  source_id : Nat
  destination_id : Nat
  destination_type : String
  priority : Int
  condition : Option ConditionalExpression

/-- Modelled from the spec: `Branch.execute` is not under src/ (only its
caller `Workflow.get_branch` is).  Per the spec, a branch evaluates its
ConditionalExpression with the just-produced result as `data_in`; an absent
condition always passes; when the tree evaluates true the branch yields its
destination id and kind, otherwise nothing. -/
def Branch.execute (s : ExecStrategy) (b : Branch) (data_in : Val) (acc : Accumulator) :
    Option (Nat × String) :=
  match b.condition with
  | none => some (b.destination_id, b.destination_type)
  | some expr =>
    if expr.execute s data_in acc then some (b.destination_id, b.destination_type) else none

/-- `walkoff/executiondb/workflow.py` Workflow: actions, branches, child
workflows, a start node id and the derived validity flag. -/
structure Workflow where
  id : Nat
  name : String
  actions : List Action
  branches : List Branch
  child_workflows : List Action
  start : Nat
  is_valid : Bool

/-- `Workflow.get_action_by_id`. -/
def Workflow.get_action_by_id (w : Workflow) (action_id : Nat) : Option Action :=
  w.actions.find? (fun a => a.id == action_id)

/-- `Workflow.get_child_workflow_by_id`. -/
def Workflow.get_child_workflow_by_id (w : Workflow) (workflow_id : Nat) : Option Action :=
  w.child_workflows.find? (fun a => a.id == workflow_id)

/-- `Workflow.__get_branches_by_action_id`: the branches whose source is the
given node. -/
def Workflow.get_branches_by_action_id (w : Workflow) (id_ : Nat) : List Branch :=
  w.branches.filter (fun b => b.source_id == id_)

/-- The `sorted(..., key=lambda branch_: branch_.priority)` call in
`Workflow.get_branch` (Python's sort is an ascending stable mergesort). -/
def Workflow.sorted_branches (w : Workflow) (id_ : Nat) : List Branch :=
  (w.get_branches_by_action_id id_).mergeSort (fun b₁ b₂ => b₁.priority ≤ b₂.priority)

/-- `Workflow.get_branch`: try the source node's branches in ascending
priority order and commit to the first whose evaluation yields a
destination. -/
def Workflow.get_branch (s : ExecStrategy) (w : Workflow) (current : Action) (data_in : Val)
    (acc : Accumulator) : Option (Nat × String) :=
  if w.branches.isEmpty then none
  else (w.sorted_branches current.id).findSome? (fun b => Branch.execute s b data_in acc)

/-- Instrumented form of the `get_branch` loop: same result, plus the list of
branches whose conditions were actually evaluated, in order. -/
def getBranchTraceGo (s : ExecStrategy) (data_in : Val) (acc : Accumulator) :
    List Branch → Option (Nat × String) × List Branch
  | [] => (none, [])
  | b :: rest =>
    match Branch.execute s b data_in acc with
    | some d => (some d, [b])
    | none =>
      let r := getBranchTraceGo s data_in acc rest
      (r.1, b :: r.2)

/-- `Workflow.get_branch` with its evaluation trace. -/
def Workflow.get_branch_trace (s : ExecStrategy) (w : Workflow) (current : Action) (data_in : Val)
    (acc : Accumulator) : Option (Nat × String) × List Branch :=
  if w.branches.isEmpty then (none, [])
  else getBranchTraceGo s data_in acc (w.sorted_branches current.id)

/-- The accumulator as first built in `Workflow.__init__` / `init_on_load`:
`{branch.id: 0 for branch in self.branches}`. -/
def Workflow.init_accumulator (w : Workflow) : Accumulator :=
  w.branches.map (fun b => (b.id, Val.vint 0))

/-- The engine-private runtime fields of a Workflow (`_is_paused`, `_abort`,
`_accumulator`, `_execution_id`). -/
structure WorkflowState where
  is_paused : Bool
  abort : Bool
  accumulator : Accumulator
  execution_id : String
  deriving DecidableEq, Repr

/-- The WalkoffEvent signals sent by `Workflow.execute` / `__execute` /
`__shutdown`. -/
inductive WEvent where
  | workflowExecutionStart
  | workflowPaused
  | workflowAborted
  | workflowShutdown (data : List (String × Val))
  deriving DecidableEq, Repr

/-- What a single `next()` on the `__execute` generator yields: the strings
`'Paused'`, `'Aborted'`, `'Triggered'`, or the last result once the node loop
is exhausted. -/
inductive ExecResult where
  | paused
  | aborted
  | triggered
  | completed (last_result : Option Val)
  deriving DecidableEq, Repr

/-- External collaborator invoking an action / child workflow
(`action.execute(accumulator, arguments=..., resume=..., instance=...)`):
given the node id, the accumulator, the start arguments (first node only) and
the resume flag, it yields the result's `status` (where `some "trigger"`
suspends the run) and the output value recorded by `get_output().result`. -/
structure ActionOracle where
  run : Nat → Accumulator → Option (List Argument) → Bool → Option String × Val

/-- `if start_arguments: start_arguments = None` — Python truthiness keeps an
empty argument list in place. -/
def consumeStartArguments : Option (List Argument) → Option (List Argument)
  | some l => if l.isEmpty then some l else none
  | none => none

/-- The node loop of `Workflow.__execute` interleaved with the `__actions`
generator, driven to the first yield (the sole `next()` the outer `execute`
performs).  `fuel` bounds the walk of the (possibly cyclic) graph; `none`
means the bound was hit.  Returns the events emitted, the final runtime
state, and the yielded value. -/
def Workflow.execLoop (s : ExecStrategy) (o : ActionOracle) (w : Workflow) :
    Nat → WorkflowState → Option Action → Option Val → Option (List Argument) → Bool →
    Option (List WEvent × WorkflowState × ExecResult)
  | 0, _, _, _, _, _ => none
  | _ + 1, st, none, last_result, _, _ =>
    some ([WEvent.workflowShutdown (snapshot st.accumulator)], st, .completed last_result)
  | fuel + 1, st, some node, _, start_arguments, resume =>
    if st.is_paused then
      some ([WEvent.workflowPaused], { st with is_paused := false }, .paused)
    else if st.abort then
      some ([WEvent.workflowAborted], { st with abort := false }, .aborted)
    else
      let out := o.run node.id st.accumulator start_arguments resume
      if out.1 == some "trigger" then
        some ([], st, .triggered)
      else
        let acc' := accUpdate st.accumulator node.id out.2
        let st' := { st with accumulator := acc' }
        let args' := consumeStartArguments start_arguments
        match w.get_branch s node out.2 acc' with
        | none => Workflow.execLoop s o w fuel st' none (some out.2) args' resume
        | some (dest, ty) =>
          let next_node :=
            if ty == "action" then w.get_action_by_id dest else w.get_child_workflow_by_id dest
          Workflow.execLoop s o w fuel st' next_node (some out.2) args' resume

/-- Resolution of the starting node in `__actions`: an action if one matches,
else a child workflow. -/
def Workflow.resolveStart (w : Workflow) (start : Option Nat) : Option Action :=
  let start_id := start.getD w.start
  match w.get_action_by_id start_id with
  | some a => some a
  | none => w.get_child_workflow_by_id start_id

/-- `Workflow.execute`: refuse invalid workflows (log only — no event, no
result); otherwise record the execution id, emit WorkflowExecutionStart, and
drive `__execute` to its single yielded value.  The outer `Option` is the
fuel bound; the inner `Option ExecResult` is the Python return value (`None`
on refusal). -/
def Workflow.execute (s : ExecStrategy) (o : ActionOracle) (w : Workflow) (st : WorkflowState)
    (execution_id : String) (start : Option Nat) (start_arguments : Option (List Argument))
    (resume : Bool) (fuel : Nat) :
    Option (Option ExecResult × List WEvent × WorkflowState) :=
  if w.is_valid then
    let st₁ := { st with execution_id := execution_id }
    match Workflow.execLoop s o w fuel st₁ (w.resolveStart start) none start_arguments resume with
    | none => none
    | some (evs, st₂, r) => some (some r, WEvent.workflowExecutionStart :: evs, st₂)
  else
    some (none, [], st)

/-- The WalkoffEvent kinds a deserialized wire message can republish;
`workflowShutdown` and `workflowAborted` are the two the receiver counts. -/
inductive CallbackEvent where
  | workflowShutdown
  | workflowAborted
  | otherEvent (name : String)
  deriving DecidableEq, Repr

/-- Modelled from the spec: `ProtobufWorkflowResultsConverter.to_event_callback`
(`walkoff/multiprocessedexecutor/protoconverter.py`) is not under src/.  Per
the spec the collector "deserializes each incoming wire message into (event
kind, sender descriptor, payload)" and malformed wire messages are "logged,
message discarded, loop continues": the deserializer is total, returning
`none` components for a message it cannot decode (the `sender is not None and
event is not None` guard in `_send_callback` then discards it). -/
structure ResultsConverter where
  to_event_callback : List Nat → Option CallbackEvent × Option String × Option Val

/-- Observable state of `ZmqWorkflowResultsReceiver`: the
`workflows_executed` counter and the events republished so far. -/
structure ReceiverState where
  workflows_executed : Nat
  sent : List (CallbackEvent × String × Option Val)
  deriving DecidableEq, Repr

/-- `ZmqWorkflowResultsReceiver._send_callback`: deserialize, and when both
sender and event are present republish the event and bump the counter if the
event is WorkflowShutdown or WorkflowAborted. -/
def sendCallback (conv : ResultsConverter) (st : ReceiverState) (message_bytes : List Nat) :
    ReceiverState :=
  match conv.to_event_callback message_bytes with
  | (some event, some sender, data) =>
    let st₁ := { st with sent := st.sent ++ [(event, sender, data)] }
    if event = .workflowShutdown ∨ event = .workflowAborted then
      { st₁ with workflows_executed := st₁.workflows_executed + 1 }
    else st₁
  | _ => st

/-- Whether a wire message deserializes to a completion event (the counter's
increment condition). -/
def isCompletionMessage (conv : ResultsConverter) (message_bytes : List Nat) : Bool :=
  match conv.to_event_callback message_bytes with
  | (some event, some _, _) => event = .workflowShutdown || event = .workflowAborted
  | _ => false

/-- `ZmqWorkflowResultsReceiver.receive_results` over the messages that
arrive on the PULL socket, in arrival order (empty polls only sleep and
change nothing). -/
def receive_results (conv : ResultsConverter) (msgs : List (List Nat)) (st : ReceiverState) :
    ReceiverState :=
  msgs.foldl (sendCallback conv) st

/-- `WorkflowStatusEnum` values persisted for an execution. -/
inductive WStatus where
  | pending
  | running
  | paused
  | awaiting_data
  | completed
  | aborted
  deriving DecidableEq, Repr

/-- The `WorkflowStatus` row queried by the executor. -/
structure WorkflowStatusRec where
  status : WStatus
  deriving DecidableEq, Repr

/-- `MultiprocessedExecutor.pause_workflow`
(`walkoff/core/multiprocessedexecutor/multiprocessedexecutor.py`): query the
status row for the execution id, then
`print("Workflow status: {}".format(workflow_status.__dict__))` — which
raises AttributeError when the query returned `None`, before the
`if workflow_status and ...` guard is reached — then forward the pause and
return True when the status is running, else log a warning and return False.
`db` is the status store keyed by execution id; `Except.error` models an
uncaught exception. -/
def pause_workflow (db : String → Option WorkflowStatusRec) (execution_id : String) :
    Except String Bool :=
  match db execution_id with
  | none => .error "AttributeError: NoneType object has no attribute __dict__"
  | some workflow_status =>
    if workflow_status.status = .running then .ok true
    else .ok false

/-- The same expression tree with the root's `is_negated` flag toggled. -/
def ConditionalExpression.negate_root : ConditionalExpression → ConditionalExpression
  | .mk op neg conds children => .mk op (!neg) conds children

/-- "Evaluation hits no validation/execution failure path": every condition
validation and every capability invocation the strategy can be asked for
succeeds. -/
def ExecStrategy.conditions_total (s : ExecStrategy) : Prop :=
  (∀ app act args acc, ∃ r, s.validate_condition app act args acc = .ok r) ∧
  (∀ app act acc args, ∃ b, s.run_condition app act acc args = .ok b)

/-- Fixture: a strategy on which every validation and invocation succeeds. -/
def okStrategy : ExecStrategy where
  validate_transform := fun _ _ _ _ => .ok []
  run_transform := fun _ _ _ _ => .ok (Val.vint 0)
  validate_condition := fun _ _ _ _ => .ok []
  run_condition := fun _ _ _ _ => .ok true

/-- Fixture: a strategy on which every argument validation raises
`InvalidArgument`. -/
def errStrategy : ExecStrategy where
  validate_transform := fun _ _ _ _ => .error "InvalidArgument"
  run_transform := fun _ _ _ _ => .error "ExecutionError"
  validate_condition := fun _ _ _ _ => .error "InvalidArgument"
  run_condition := fun _ _ _ _ => .error "ExecutionError"

/-- Fixture: a strategy whose validations succeed but whose capability
invocations raise `ExecutionError`. -/
def raiseStrategy : ExecStrategy where
  validate_transform := fun _ _ _ _ => .ok []
  run_transform := fun _ _ _ _ => .error "ExecutionError"
  validate_condition := fun _ _ _ _ => .ok []
  run_condition := fun _ _ _ _ => .error "ExecutionError"

/-- Fixture: a negated condition with no transforms. -/
def sampleCondition : Condition :=
  { app_name := "app", action_name := "cond", data_param_name := "value",
    is_negated := true, arguments := [], transforms := [] }

/-- Fixture: a transform with no extra arguments. -/
def sampleTransform : Transform :=
  { app_name := "app", action_name := "tr", data_param_name := "value", arguments := [] }

/-- Fixture: an action oracle whose invocations complete normally with a
constant result. -/
def idleOracle : ActionOracle where
  run := fun _ _ _ _ => (none, Val.vint 7)

/-- Fixture: a one-action workflow with no branches. -/
def sampleWorkflow : Workflow :=
  { id := 10, name := "wf", actions := [⟨1⟩], branches := [], child_workflows := [],
    start := 1, is_valid := true }

/-- Fixture: `sampleWorkflow` marked invalid. -/
def invalidWorkflow : Workflow :=
  { id := 11, name := "bad", actions := [⟨1⟩], branches := [], child_workflows := [],
    start := 1, is_valid := false }

/-- Fixture: runtime state with both the paused and the abort flag raised. -/
def bothFlagsState : WorkflowState :=
  { is_paused := true, abort := true, accumulator := [], execution_id := "default" }

/-- Fixture: runtime state with only the abort flag raised. -/
def abortFlagState : WorkflowState :=
  { is_paused := false, abort := true, accumulator := [], execution_id := "default" }

/-- Fixture: quiescent runtime state. -/
def idleState : WorkflowState :=
  { is_paused := false, abort := false, accumulator := [], execution_id := "default" }

/-- Fixture: the spec's branch-selection example — three always-true branches
out of action 1 with priorities 5, 1 and 3. -/
def branchP5 : Branch := ⟨100, 1, 2, "action", 5, none⟩

/-- Fixture: the priority-1 branch of the example. -/
def branchP1 : Branch := ⟨101, 1, 3, "action", 1, none⟩

/-- Fixture: the priority-3 branch of the example. -/
def branchP3 : Branch := ⟨102, 1, 4, "action", 3, none⟩

/-- Fixture: workflow holding the three example branches. -/
def branchWorkflow : Workflow :=
  { id := 20, name := "bw", actions := [⟨1⟩, ⟨2⟩, ⟨3⟩, ⟨4⟩],
    branches := [branchP5, branchP1, branchP3], child_workflows := [],
    start := 1, is_valid := true }

/-- Fixture: a one-action workflow with a single branch whose destination id
matches no node, so a run completes after one action. -/
def seededWorkflow : Workflow :=
  { id := 30, name := "sw", actions := [⟨1⟩], branches := [⟨200, 1, 2, "action", 0, none⟩],
    child_workflows := [], start := 1, is_valid := true }

/-- Fixture: quiescent state whose accumulator is `seededWorkflow`'s freshly
initialized one. -/
def seededState : WorkflowState :=
  { is_paused := false, abort := false, accumulator := seededWorkflow.init_accumulator,
    execution_id := "default" }

end Walkoff

namespace Walkoff

/-- Claim C2: a ConditionalExpression with empty conditions, empty children
and `is_negated = false` evaluates to `True` under each of the three
operators `and`, `or` and `xor`. -/
theorem c2_empty_expression_evaluates_true (s : ExecStrategy) (d : Val) (acc : Accumulator) :
    ConditionalExpression.execute s d acc (.mk .opAnd false [] []) = true ∧
    ConditionalExpression.execute s d acc (.mk .opOr false [] []) = true ∧
    ConditionalExpression.execute s d acc (.mk .opXor false [] []) = true := by
  refine ⟨?_, ?_, ?_⟩ <;> simp [ConditionalExpression.execute]

/-- Claim C6: toggling the root `is_negated` flag of any expression tree
negates its evaluation — the inversion is applied after the operator over
conditions and children computes — whenever evaluation hits no
validation/execution failure path. -/
theorem c6_negation_toggles_result (s : ExecStrategy) (_h : s.conditions_total) (d : Val)
    (acc : Accumulator) (e : ConditionalExpression) :
    ConditionalExpression.execute s d acc e.negate_root =
      !(ConditionalExpression.execute s d acc e) := by
  cases e with
  | mk op neg conds children =>
    rw [ConditionalExpression.negate_root]
    rw [ConditionalExpression.execute.eq_def, ConditionalExpression.execute.eq_def]
    cases neg <;> simp

/-- Witness for C6 at a concrete total strategy and a concrete tree. -/
theorem c6_witness :
    ConditionalExpression.execute okStrategy (Val.vint 0) []
        ((ConditionalExpression.mk .opXor false [] []).negate_root) =
      !(ConditionalExpression.execute okStrategy (Val.vint 0) []
        (.mk .opXor false [] [])) :=
  c6_negation_toggles_result okStrategy
    ⟨fun _ _ _ _ => ⟨[], rfl⟩, fun _ _ _ _ => ⟨true, rfl⟩⟩
    (Val.vint 0) [] (.mk .opXor false [] [])

/-- Claim C4: a Condition whose argument validation raises `InvalidArgument`,
or whose capability invocation raises an execution error, returns `False`
regardless of `is_negated`; only when both succeed is `is_negated` applied to
the capability's boolean result. -/
theorem c4_condition_fail_closed (s : ExecStrategy) (c : Condition) (d : Val)
    (acc : Accumulator) :
    (∀ e, s.validate_condition c.app_name c.action_name
          (c.update_arguments_with_data
            (c.transforms.foldl (fun x t => Transform.execute s t x acc) d)) acc = .error e →
        Condition.execute s c d acc = false ∧
        Condition.execute s { c with is_negated := !c.is_negated } d acc = false) ∧
    (∀ args e, s.validate_condition c.app_name c.action_name
          (c.update_arguments_with_data
            (c.transforms.foldl (fun x t => Transform.execute s t x acc) d)) acc = .ok args →
        s.run_condition c.app_name c.action_name acc args = .error e →
        Condition.execute s c d acc = false ∧
        Condition.execute s { c with is_negated := !c.is_negated } d acc = false) ∧
    (∀ args ret, s.validate_condition c.app_name c.action_name
          (c.update_arguments_with_data
            (c.transforms.foldl (fun x t => Transform.execute s t x acc) d)) acc = .ok args →
        s.run_condition c.app_name c.action_name acc args = .ok ret →
        Condition.execute s c d acc = (if c.is_negated then !ret else ret)) := by
  refine ⟨?_, ?_, ?_⟩
  · intro e he
    have he' : s.validate_condition ({ c with is_negated := !c.is_negated } : Condition).app_name
        ({ c with is_negated := !c.is_negated } : Condition).action_name
        (({ c with is_negated := !c.is_negated } : Condition).update_arguments_with_data
          (({ c with is_negated := !c.is_negated } : Condition).transforms.foldl
            (fun x t => Transform.execute s t x acc) d)) acc = .error e := he
    exact ⟨by simp [Condition.execute, he], by simp [Condition.execute, he']⟩
  · intro args e hv hr
    have hv' : s.validate_condition ({ c with is_negated := !c.is_negated } : Condition).app_name
        ({ c with is_negated := !c.is_negated } : Condition).action_name
        (({ c with is_negated := !c.is_negated } : Condition).update_arguments_with_data
          (({ c with is_negated := !c.is_negated } : Condition).transforms.foldl
            (fun x t => Transform.execute s t x acc) d)) acc = .ok args := hv
    exact ⟨by simp [Condition.execute, hv, hr], by simp [Condition.execute, hv', hr]⟩
  · intro args ret hv hr
    simp [Condition.execute, hv, hr]

/-- Witness for C4: a negated condition whose validation fails returns
`False`, not `not False`. -/
theorem c4_witness :
    Condition.execute errStrategy sampleCondition (Val.vint 1) [] = false ∧
    sampleCondition.is_negated = true :=
  ⟨((c4_condition_fail_closed errStrategy sampleCondition (Val.vint 1) []).1
      "InvalidArgument" rfl).1, rfl⟩

/-- Claim C5: a Transform whose argument validation raises `InvalidArgument`,
or whose capability invocation raises an execution error, returns its input
unchanged; and a Condition applies its Transform chain left-to-right, feeding
each transform's output to the next. -/
theorem c5_transform_fail_open_and_chain (s : ExecStrategy) (t : Transform) (d : Val)
    (acc : Accumulator) (c : Condition) :
    (∀ e, s.validate_transform t.app_name t.action_name
          (t.update_arguments_with_data d) acc = .error e →
        Transform.execute s t d acc = d) ∧
    (∀ args e, s.validate_transform t.app_name t.action_name
          (t.update_arguments_with_data d) acc = .ok args →
        s.run_transform t.app_name t.action_name acc args = .error e →
        Transform.execute s t d acc = d) ∧
    (Condition.execute s c d acc =
      Condition.execute s { c with transforms := [] }
        (c.transforms.foldl (fun x tr => Transform.execute s tr x acc) d) acc) := by
  refine ⟨?_, ?_, ?_⟩
  · intro e he
    simp [Transform.execute, he]
  · intro args e hv hr
    simp [Transform.execute, hv, hr]
  · rfl

/-- Witness for C5: `transform(x) == x` on the failed-validation path and on
the failed-invocation path, at a concrete input. -/
theorem c5_witness :
    Transform.execute errStrategy sampleTransform (Val.vint 5) [] = Val.vint 5 ∧
    Transform.execute raiseStrategy sampleTransform (Val.vint 5) [] = Val.vint 5 :=
  ⟨(c5_transform_fail_open_and_chain errStrategy sampleTransform (Val.vint 5) []
      sampleCondition).1 "InvalidArgument" rfl,
   (c5_transform_fail_open_and_chain raiseStrategy sampleTransform (Val.vint 5) []
      sampleCondition).2.1 [] "ExecutionError" rfl rfl⟩

/-- Claim C7: executing a workflow whose `is_valid` flag is false runs no
actions, emits no event, returns no result (it only logs), and leaves the
runtime state — accumulator, flags, execution id — unchanged. -/
theorem c7_invalid_workflow_refused (s : ExecStrategy) (o : ActionOracle) (w : Workflow)
    (st : WorkflowState) (execution_id : String) (start : Option Nat)
    (start_arguments : Option (List Argument)) (resume : Bool) (fuel : Nat)
    (h : w.is_valid = false) :
    Workflow.execute s o w st execution_id start start_arguments resume fuel =
      some (none, [], st) := by
  simp [Workflow.execute, h]

/-- Witness for C7 on a concrete invalid workflow. -/
theorem c7_witness :
    Workflow.execute okStrategy idleOracle invalidWorkflow idleState "eid" none none false 5 =
      some (none, [], idleState) :=
  c7_invalid_workflow_refused okStrategy idleOracle invalidWorkflow idleState "eid" none none
    false 5 rfl

/-- Claim C9 (code bug): `pause_workflow` raises before its own `None`-guard.
The debug `print(workflow_status.__dict__)` precedes the
`if workflow_status and ...` check, so when no status record exists the call
raises AttributeError instead of returning False; with a record present it
returns True exactly when the status is running, and False otherwise. -/
theorem c9_pause_crashes_without_status_record :
    pause_workflow (fun _ => none) "exec-id" =
        Except.error "AttributeError: NoneType object has no attribute __dict__" ∧
    pause_workflow (fun _ => some ⟨WStatus.running⟩) "exec-id" = Except.ok true ∧
    pause_workflow (fun _ => some ⟨WStatus.paused⟩) "exec-id" = Except.ok false ∧
    pause_workflow (fun _ => some ⟨WStatus.completed⟩) "exec-id" = Except.ok false :=
  ⟨rfl, rfl, rfl, rfl⟩

/-- Counterexample to claim C1 as stated: with both the paused and the abort
flag set at the node boundary, the engine yields `Paused`, not `Aborted` —
the pause check comes first in `Workflow.__execute`. -/
theorem c1_counterexample :
    Workflow.execute okStrategy idleOracle sampleWorkflow bothFlagsState "eid" none none false 3 =
      some (some ExecResult.paused,
        [WEvent.workflowExecutionStart, WEvent.workflowPaused],
        { bothFlagsState with execution_id := "eid", is_paused := false }) ∧
    ExecResult.paused ≠ ExecResult.aborted := by
  exact ⟨rfl, by decide⟩

/-- Claim C1 as amended: before invoking each node the engine checks the
paused flag first — if set, it clears it, emits a Paused event and stops the
run — and only then the abort flag — if set, it clears it, emits an Aborted
event and stops.  When both flags are set at a node boundary the pause check
fires and the run ends Paused; each `execute` call consumes exactly one such
terminal event. -/
theorem c1_pause_checked_before_abort (s : ExecStrategy) (o : ActionOracle) (w : Workflow)
    (st : WorkflowState) (execution_id : String) (start : Option Nat)
    (start_arguments : Option (List Argument)) (resume : Bool) (fuel : Nat) (a : Action)
    (hv : w.is_valid = true) (hn : w.resolveStart start = some a) :
    (st.is_paused = true →
      Workflow.execute s o w st execution_id start start_arguments resume (fuel + 1) =
        some (some ExecResult.paused,
          [WEvent.workflowExecutionStart, WEvent.workflowPaused],
          { st with execution_id := execution_id, is_paused := false })) ∧
    (st.is_paused = false → st.abort = true →
      Workflow.execute s o w st execution_id start start_arguments resume (fuel + 1) =
        some (some ExecResult.aborted,
          [WEvent.workflowExecutionStart, WEvent.workflowAborted],
          { st with execution_id := execution_id, abort := false })) := by
  constructor
  · intro hp
    simp [Workflow.execute, hv, hn, Workflow.execLoop, hp]
  · intro hp ha
    simp [Workflow.execute, hv, hn, Workflow.execLoop, hp, ha]

/-- Witness for C1 as amended: the abort flag alone, at a concrete workflow's
first node boundary, ends the run Aborted with the flag cleared. -/
theorem c1_witness :
    Workflow.execute okStrategy idleOracle sampleWorkflow abortFlagState "eid" none none false 3 =
      some (some ExecResult.aborted,
        [WEvent.workflowExecutionStart, WEvent.workflowAborted],
        { abortFlagState with execution_id := "eid", abort := false }) :=
  (c1_pause_checked_before_abort okStrategy idleOracle sampleWorkflow abortFlagState "eid" none
    none false 2 ⟨1⟩ rfl rfl).2 rfl rfl

/-- One `_send_callback` step bumps the counter exactly on completion
messages. -/
theorem sendCallback_workflows_executed (conv : ResultsConverter) (st : ReceiverState)
    (m : List Nat) :
    (sendCallback conv st m).workflows_executed =
      st.workflows_executed + (if isCompletionMessage conv m then 1 else 0) := by
  unfold sendCallback isCompletionMessage
  rcases h : conv.to_event_callback m with ⟨e?, s?, dt⟩
  cases e? with
  | none => cases s? <;> simp
  | some e =>
    cases s? with
    | none => simp
    | some snd =>
      by_cases hc : e = .workflowShutdown ∨ e = .workflowAborted <;> simp [hc]

/-- Claim C8: the Results Collector's receive loop survives every incoming
wire message — a message the deserializer cannot decode into a full (event,
sender, data) triple is discarded and the loop goes on to process the
remaining messages — and the executions-completed counter is incremented
exactly for the messages carrying a WorkflowShutdown or WorkflowAborted
event. -/
theorem c8_receiver_never_crashes_and_counts (conv : ResultsConverter) (msgs : List (List Nat))
    (st : ReceiverState) (m : List Nat) :
    receive_results conv (msgs ++ [m]) st = sendCallback conv (receive_results conv msgs st) m ∧
    (receive_results conv msgs st).workflows_executed =
      st.workflows_executed + msgs.countP (isCompletionMessage conv) := by
  constructor
  · simp [receive_results, List.foldl_append]
  · induction msgs generalizing st with
    | nil => simp [receive_results]
    | cons mm rest ih =>
      simp only [receive_results, List.foldl_cons, List.countP_cons] at *
      rw [ih, sendCallback_workflows_executed]
      by_cases hc : isCompletionMessage conv mm
      · simp [hc]
        omega
      · simp [hc]

/-- `findSome?` commits to the first element that produces a value. -/
theorem findSome?_first_hit {α β : Type} (f : α → Option β) (d : β) :
    ∀ (l₁ : List α) (b : α) (l₂ : List α), (∀ x ∈ l₁, f x = none) → f b = some d →
      (l₁ ++ b :: l₂).findSome? f = some d := by
  intro l₁
  induction l₁ with
  | nil =>
    intro b l₂ _ hb
    simp [List.findSome?_cons, hb]
  | cons x rest ih =>
    intro b l₂ hnone hb
    have hx : f x = none := hnone x (by simp)
    simp only [List.cons_append, List.findSome?_cons, hx]
    exact ih b l₂ (fun y hy => hnone y (by simp [hy])) hb

/-- The instrumented branch loop evaluates exactly the failing prefix and the
first succeeding branch, and never the branches after it. -/
theorem getBranchTraceGo_first_hit (s : ExecStrategy) (d : Val) (acc : Accumulator)
    (dest : Nat × String) :
    ∀ (l₁ : List Branch) (b : Branch) (l₂ : List Branch),
      (∀ x ∈ l₁, Branch.execute s x d acc = none) → Branch.execute s b d acc = some dest →
      getBranchTraceGo s d acc (l₁ ++ b :: l₂) = (some dest, l₁ ++ [b]) := by
  intro l₁
  induction l₁ with
  | nil =>
    intro b l₂ _ hb
    simp [getBranchTraceGo, hb]
  | cons x rest ih =>
    intro b l₂ hnone hb
    have hx : Branch.execute s x d acc = none := hnone x (by simp)
    simp only [List.cons_append, getBranchTraceGo, hx, List.append_eq]
    rw [ih b l₂ (fun y hy => hnone y (by simp [hy])) hb]

/-- Claim C3: next-node resolution gathers exactly the branches whose source
is the finished node, sorts them ascending by priority, commits to the first
branch (in that order) whose condition yields a destination without
evaluating the later ones, and — when no branch matches — the engine's node
loop ends the run Completed via a Shutdown event. -/
theorem c3_branch_resolution (s : ExecStrategy) (w : Workflow) (a : Action) (d : Val)
    (acc : Accumulator) :
    (∀ b : Branch, b ∈ w.get_branches_by_action_id a.id ↔
        b ∈ w.branches ∧ b.source_id = a.id) ∧
    (w.sorted_branches a.id).Pairwise (fun b₁ b₂ => b₁.priority ≤ b₂.priority) ∧
    (w.sorted_branches a.id).Perm (w.get_branches_by_action_id a.id) ∧
    (∀ (l₁ : List Branch) (b : Branch) (l₂ : List Branch) (dest : Nat × String),
        w.branches ≠ [] →
        w.sorted_branches a.id = l₁ ++ b :: l₂ →
        (∀ x ∈ l₁, Branch.execute s x d acc = none) →
        Branch.execute s b d acc = some dest →
        w.get_branch s a d acc = some dest ∧
        (w.get_branch_trace s a d acc).2 = l₁ ++ [b]) ∧
    ((∀ x ∈ w.sorted_branches a.id, Branch.execute s x d acc = none) →
        w.get_branch s a d acc = none) ∧
    (∀ (o : ActionOracle) (st : WorkflowState) (fuel : Nat) (last_result : Option Val)
        (args : Option (List Argument)) (resume : Bool) (out : Val),
        st.is_paused = false → st.abort = false →
        o.run a.id st.accumulator args resume = (none, out) →
        (∀ x ∈ w.sorted_branches a.id,
            Branch.execute s x out (accUpdate st.accumulator a.id out) = none) →
        Workflow.execLoop s o w (fuel + 2) st (some a) last_result args resume =
          some ([WEvent.workflowShutdown (snapshot (accUpdate st.accumulator a.id out))],
            { st with accumulator := accUpdate st.accumulator a.id out },
            ExecResult.completed (some out))) := by
  have hmem : ∀ b : Branch, b ∈ w.get_branches_by_action_id a.id ↔
      b ∈ w.branches ∧ b.source_id = a.id := by
    intro b
    simp [Workflow.get_branches_by_action_id, List.mem_filter]
  have hpair : (w.sorted_branches a.id).Pairwise (fun b₁ b₂ => b₁.priority ≤ b₂.priority) := by
    have hs : (w.sorted_branches a.id).Pairwise
        (fun b₁ b₂ => (decide (b₁.priority ≤ b₂.priority)) = true) := by
      unfold Workflow.sorted_branches
      exact List.sorted_mergeSort
        (by intro b₁ b₂ b₃ h₁ h₂; simp at h₁ h₂ ⊢; omega)
        (by intro b₁ b₂; simp; omega)
        (w.get_branches_by_action_id a.id)
    exact hs.imp (fun h => by simpa using h)
  have hperm : (w.sorted_branches a.id).Perm (w.get_branches_by_action_id a.id) :=
    List.mergeSort_perm (w.get_branches_by_action_id a.id) _
  have hnone_branch : (∀ x ∈ w.sorted_branches a.id, Branch.execute s x d acc = none) →
      w.get_branch s a d acc = none := by
    intro hall
    unfold Workflow.get_branch
    split
    · rfl
    · exact List.findSome?_eq_none_iff.mpr hall
  refine ⟨hmem, hpair, hperm, ?_, hnone_branch, ?_⟩
  · intro l₁ b l₂ dest hne hsplit hpre hb
    constructor
    · unfold Workflow.get_branch
      split
      · simp_all [List.isEmpty_iff]
      · rw [hsplit]
        exact findSome?_first_hit _ dest l₁ b l₂ hpre hb
    · unfold Workflow.get_branch_trace
      split
      · simp_all [List.isEmpty_iff]
      · rw [hsplit, getBranchTraceGo_first_hit s d acc dest l₁ b l₂ hpre hb]
  · intro o st fuel last_result args resume out hp ha ho hall
    have hgb : w.get_branch s a out (accUpdate st.accumulator a.id out) = none := by
      unfold Workflow.get_branch
      split
      · rfl
      · exact List.findSome?_eq_none_iff.mpr hall
    show Workflow.execLoop s o w (fuel + 1 + 1) st (some a) last_result args resume = _
    rw [Workflow.execLoop]
    simp only [hp, ha, ho, Bool.false_eq_true, if_false]
    simp only [hgb]
    rw [Workflow.execLoop]
    simp

/-- Witness for C3 on the spec's example: three always-true branches with
priorities 5, 1 and 3 — the priority-1 branch's destination is chosen and it
is the only branch evaluated. -/
theorem c3_witness :
    branchWorkflow.get_branch okStrategy ⟨1⟩ (Val.vint 0) [] = some (3, "action") ∧
    (branchWorkflow.get_branch_trace okStrategy ⟨1⟩ (Val.vint 0) []).2 = [branchP1] :=
  (c3_branch_resolution okStrategy branchWorkflow ⟨1⟩ (Val.vint 0) []).2.2.2.1
    [] branchP1 [branchP3, branchP5] (3, "action") (by simp [branchWorkflow])
    (by simp [Workflow.sorted_branches, Workflow.get_branches_by_action_id, branchWorkflow,
      branchP5, branchP1, branchP3, List.mergeSort, List.splitInTwo_fst, List.splitInTwo_snd,
      List.merge])
    (by simp) rfl

/-- Overwriting a present key makes its value retrievable. -/
theorem accLookup_map_overwrite_self (k : Nat) (v : Val) :
    ∀ acc : Accumulator, acc.any (fun p => p.1 == k) = true →
      accLookup (acc.map (fun p => if p.1 == k then (k, v) else p)) k = some v := by
  intro acc
  induction acc with
  | nil => simp
  | cons p rest ih =>
    intro hany
    by_cases hp : p.1 == k
    · simp [accLookup, List.find?, hp]
    · simp only [List.any_cons, hp, Bool.false_or] at hany
      simpa [accLookup, List.find?, hp] using ih hany

/-- Appending a fresh key makes its value retrievable. -/
theorem accLookup_append_single_self (k : Nat) (v : Val) :
    ∀ acc : Accumulator, acc.any (fun p => p.1 == k) = false →
      accLookup (acc ++ [(k, v)]) k = some v := by
  intro acc
  induction acc with
  | nil => simp [accLookup, List.find?]
  | cons p rest ih =>
    intro hany
    simp only [List.any_cons, Bool.or_eq_false_iff] at hany
    simpa [accLookup, List.find?, hany.1] using ih hany.2

/-- Dict assignment stores the assigned value under the assigned key. -/
theorem accLookup_accUpdate_self (acc : Accumulator) (k : Nat) (v : Val) :
    accLookup (accUpdate acc k v) k = some v := by
  unfold accUpdate
  by_cases h : acc.any (fun p => p.1 == k) <;> simp only [h, if_true, if_false]
  · exact accLookup_map_overwrite_self k v acc h
  · have hf : acc.any (fun p => p.1 == k) = false := by
      cases hb : acc.any (fun p => p.1 == k)
      · rfl
      · exact absurd hb h
    exact accLookup_append_single_self k v acc hf

/-- Overwriting one key does not disturb lookups of other keys. -/
theorem accLookup_map_overwrite_ne (k : Nat) (v : Val) (k' : Nat) (h : ¬k = k') :
    ∀ acc : Accumulator,
      accLookup (acc.map (fun p => if p.1 == k then (k, v) else p)) k' = accLookup acc k' := by
  intro acc
  induction acc with
  | nil => simp
  | cons p rest ih =>
    by_cases hp : p.1 == k
    · have hpk : p.1 = k := by simpa using hp
      have hne : ¬p.1 == k' := by simp [hpk, h]
      have hkk : ¬(k == k') := by simp [h]
      simp [accLookup, List.find?, hp, hkk, hne] at *
      exact ih
    · by_cases hq : p.1 == k'
      · simp [accLookup, List.find?, hp, hq]
      · simp [accLookup, List.find?, hp, hq] at *
        exact ih

/-- Appending one fresh key does not disturb lookups of other keys. -/
theorem accLookup_append_single_ne (k : Nat) (v : Val) (k' : Nat) (h : ¬k = k') :
    ∀ acc : Accumulator, accLookup (acc ++ [(k, v)]) k' = accLookup acc k' := by
  intro acc
  have hkk : (k == k') = false := by simp [h]
  induction acc with
  | nil => simp [accLookup, List.find?, hkk]
  | cons p rest ih =>
    by_cases hq : p.1 == k'
    · simp [accLookup, List.find?, hq]
    · simp [accLookup, List.find?, hq] at *
      exact ih

/-- Dict assignment leaves every other key's lookup unchanged. -/
theorem accLookup_accUpdate_ne (acc : Accumulator) (k : Nat) (v : Val) (k' : Nat) (h : ¬k = k') :
    accLookup (accUpdate acc k v) k' = accLookup acc k' := by
  unfold accUpdate
  by_cases ha : acc.any (fun p => p.1 == k) <;> simp only [ha, if_true, if_false]
  · exact accLookup_map_overwrite_ne k v k' h acc
  · exact accLookup_append_single_ne k v k' h acc

/-- Dict assignment never drops a key. -/
theorem accLookup_isSome_accUpdate (acc : Accumulator) (k' k : Nat) (v : Val)
    (h : (accLookup acc k').isSome) : (accLookup (accUpdate acc k v) k').isSome := by
  by_cases hk : k = k'
  · subst hk
    rw [accLookup_accUpdate_self]
    rfl
  · rw [accLookup_accUpdate_ne acc k v k' hk]
    exact h

/-- The node loop only ever adds accumulator entries: any key present when a
call starts is still present in the state the call returns. -/
theorem execLoop_preserves_keys (s : ExecStrategy) (o : ActionOracle) (w : Workflow) :
    ∀ (fuel : Nat) (st : WorkflowState) (node : Option Action) (lr : Option Val)
      (args : Option (List Argument)) (resume : Bool) (evs : List WEvent)
      (st' : WorkflowState) (r : ExecResult),
      Workflow.execLoop s o w fuel st node lr args resume = some (evs, st', r) →
      ∀ k, (accLookup st.accumulator k).isSome → (accLookup st'.accumulator k).isSome := by
  intro fuel
  induction fuel with
  | zero =>
    intro st node lr args resume evs st' r h
    simp [Workflow.execLoop] at h
  | succ n ih =>
    intro st node lr args resume evs st' r h k hk
    cases node with
    | none =>
      rw [Workflow.execLoop] at h
      simp at h
      obtain ⟨-, h2, -⟩ := h
      rw [← h2]
      exact hk
    | some a =>
      rw [Workflow.execLoop] at h
      split at h
      · simp at h
        obtain ⟨-, h2, -⟩ := h
        rw [← h2]
        exact hk
      · split at h
        · simp at h
          obtain ⟨-, h2, -⟩ := h
          rw [← h2]
          exact hk
        · dsimp only at h
          split at h
          · simp at h
            obtain ⟨-, h2, -⟩ := h
            rw [← h2]
            exact hk
          · split at h
            · exact ih _ _ _ _ _ _ _ _ h k (accLookup_isSome_accUpdate _ _ _ _ hk)
            · exact ih _ _ _ _ _ _ _ _ h k (accLookup_isSome_accUpdate _ _ _ _ hk)

/-- A call of the node loop that returns Completed carries a Shutdown event
holding the snapshot of the final accumulator. -/
theorem execLoop_completed_emits_shutdown (s : ExecStrategy) (o : ActionOracle) (w : Workflow) :
    ∀ (fuel : Nat) (st : WorkflowState) (node : Option Action) (lr : Option Val)
      (args : Option (List Argument)) (resume : Bool) (evs : List WEvent)
      (st' : WorkflowState) (lr' : Option Val),
      Workflow.execLoop s o w fuel st node lr args resume =
        some (evs, st', ExecResult.completed lr') →
      WEvent.workflowShutdown (snapshot st'.accumulator) ∈ evs := by
  intro fuel
  induction fuel with
  | zero =>
    intro st node lr args resume evs st' lr' h
    simp [Workflow.execLoop] at h
  | succ n ih =>
    intro st node lr args resume evs st' lr' h
    cases node with
    | none =>
      rw [Workflow.execLoop] at h
      simp at h
      obtain ⟨h1, h2, -⟩ := h
      rw [← h1, ← h2]
      simp
    | some a =>
      rw [Workflow.execLoop] at h
      split at h
      · simp at h
      · split at h
        · simp at h
        · dsimp only at h
          split at h
          · simp at h
          · split at h
            · exact ih _ _ _ _ _ _ _ _ h
            · exact ih _ _ _ _ _ _ _ _ h

/-- Every branch id is seeded with 0 in the freshly built accumulator. -/
theorem init_lookup_branch :
    ∀ (l : List Branch) (b : Branch), b ∈ l →
      accLookup (l.map (fun br => (br.id, Val.vint 0))) b.id = some (Val.vint 0) := by
  intro l
  induction l with
  | nil =>
    intro b hb
    cases hb
  | cons hd tl ih =>
    intro b hb
    by_cases hp : hd.id == b.id
    · simp [accLookup, List.find?, hp]
    · rcases List.mem_cons.mp hb with rfl | htl
      · simp at hp
      · simpa [accLookup, List.find?, hp] using ih b htl

/-- Claim C10: the accumulator starts a run pre-seeded with one entry per
Branch, mapping that branch's id to the integer 0 (so it is non-empty
whenever branches exist); each executed node's result is stored under its id;
and the string-keyed snapshot carried by the Shutdown event of a completed
run still contains an entry for every branch id of the workflow. -/
theorem c10_accumulator_preseeded_with_branches (w : Workflow) :
    (∀ b ∈ w.branches, accLookup w.init_accumulator b.id = some (Val.vint 0)) ∧
    (w.branches ≠ [] → w.init_accumulator ≠ []) ∧
    (∀ (acc : Accumulator) (k : Nat) (v : Val), accLookup (accUpdate acc k v) k = some v) ∧
    (∀ (s : ExecStrategy) (o : ActionOracle) (st : WorkflowState) (execution_id : String)
        (start : Option Nat) (args : Option (List Argument)) (resume : Bool) (fuel : Nat)
        (lr : Option Val) (evs : List WEvent) (st' : WorkflowState),
        st.accumulator = w.init_accumulator →
        Workflow.execute s o w st execution_id start args resume fuel =
          some (some (ExecResult.completed lr), evs, st') →
        WEvent.workflowShutdown (snapshot st'.accumulator) ∈ evs ∧
        ∀ b ∈ w.branches, ∃ v, (toString b.id, v) ∈ snapshot st'.accumulator) := by
  refine ⟨?_, ?_, ?_, ?_⟩
  · intro b hb
    exact init_lookup_branch w.branches b hb
  · intro h
    unfold Workflow.init_accumulator
    cases hl : w.branches with
    | nil => exact absurd hl h
    | cons hd tl => simp
  · intro acc k v
    exact accLookup_accUpdate_self acc k v
  · intro s o st execution_id start args resume fuel lr evs st' hacc hex
    unfold Workflow.execute at hex
    split at hex
    · dsimp only at hex
      cases hl : Workflow.execLoop s o w fuel { st with execution_id := execution_id }
          (w.resolveStart start) none args resume with
      | none =>
        rw [hl] at hex
        simp at hex
      | some trip =>
        obtain ⟨evs₀, st₂, r⟩ := trip
        rw [hl] at hex
        simp only [Option.some.injEq, Prod.mk.injEq] at hex
        obtain ⟨hr, hevs, hst⟩ := hex
        have hr' : r = ExecResult.completed lr := by
          cases hr
          rfl
        subst hr'
        subst hst
        constructor
        · rw [← hevs]
          exact List.mem_cons_of_mem _
            (execLoop_completed_emits_shutdown s o w fuel _ _ _ _ _ _ _ _ hl)
        · intro b hb
          have h0 : (accLookup ({ st with execution_id := execution_id }).accumulator b.id).isSome := by
            show (accLookup st.accumulator b.id).isSome
            rw [hacc]
            unfold Workflow.init_accumulator
            rw [init_lookup_branch w.branches b hb]
            rfl
          have h1 := execLoop_preserves_keys s o w fuel _ _ _ _ _ _ _ _ hl b.id h0
          obtain ⟨p, hp⟩ : ∃ p, st₂.accumulator.find? (fun q => q.1 == b.id) = some p := by
            unfold accLookup at h1
            cases hfind : st₂.accumulator.find? (fun q => q.1 == b.id) with
            | none =>
              rw [hfind] at h1
              simp at h1
            | some p => exact ⟨p, rfl⟩
          have hpmem : p ∈ st₂.accumulator := List.mem_of_find?_eq_some hp
          have hpid : p.1 = b.id := by
            have := List.find?_some hp
            simpa using this
          refine ⟨p.2, ?_⟩
          rw [← hpid]
          exact List.mem_map_of_mem _ hpmem
    · simp at hex

/-- Witness for C10: a completed concrete run whose Shutdown snapshot still
holds the branch's seeded entry next to the executed action's result. -/
theorem c10_witness :
    WEvent.workflowShutdown [("200", Val.vint 0), ("1", Val.vint 7)] ∈
        [WEvent.workflowExecutionStart,
          WEvent.workflowShutdown [("200", Val.vint 0), ("1", Val.vint 7)]] ∧
    ∀ b ∈ seededWorkflow.branches, ∃ v,
      (toString b.id, v) ∈ ([("200", Val.vint 0), ("1", Val.vint 7)] : List (String × Val)) :=
  (c10_accumulator_preseeded_with_branches seededWorkflow).2.2.2 okStrategy idleOracle
    seededState "e" none none false 5 (some (Val.vint 7))
    [WEvent.workflowExecutionStart,
      WEvent.workflowShutdown [("200", Val.vint 0), ("1", Val.vint 7)]]
    ⟨false, false, [(200, Val.vint 0), (1, Val.vint 7)], "e"⟩
    rfl
    (by
      simp [Workflow.execute, Workflow.execLoop, Workflow.resolveStart,
        Workflow.get_action_by_id, Workflow.get_child_workflow_by_id, Workflow.get_branch,
        Workflow.sorted_branches, Workflow.get_branches_by_action_id, Branch.execute,
        accUpdate, snapshot, consumeStartArguments, seededWorkflow, seededState,
        Workflow.init_accumulator, idleOracle, List.find?]
      exact ⟨rfl, rfl⟩)

end Walkoff
